import Mathlib

/-!
# Shallow embedding of the `useDebouncedValidator` React hook

This file embeds the debounced-validator hook of this repository
(`use-debounced-validator.ts`) as a small-step event semantics and proves
properties of it.

Modelling choices:
* Values handed to `debouncedValidator` live in `Option α`; `none` models the
  JavaScript value `undefined` (so `defaultValue?: T | undefined` and the
  `useRef<T | undefined>` cells need no extra layer).  Over this domain,
  `Object.is` and `===` both coincide with decidable equality (the domain has
  no `NaN` and no signed zeros).
* The predicate's settlement is a value of `Except Unit JSRes`: `.error` is a
  synchronous throw or an asynchronous rejection (the catch branch ignores the
  exception value, hence `Unit`), `.ok` carries the JS value the promise
  resolved with — a boolean, `null`, or `undefined`.
* Asynchrony is modelled by explicit events: a `call` event is one invocation
  of `debouncedValidator`, a `fire i` event is the timeout callback of timer
  handle `i` running, a `settle i` event is the `await validate(...)` of the
  `i`-th in-flight predicate call resolving or rejecting, and `cleanup` is the
  `useEffect` teardown.  Timers are kept in an environment of live (armed,
  not-yet-fired, not-cancelled) `setTimeout` entries with fresh handles, so
  that "at most one timer pending" is a theorem about the code's
  `clearTimeout` discipline, not a modelling artifact.
* Every call creates one promise, identified by a fresh id (`nextPid`); the
  `resolved` list is the log of resolutions `(promise id, value)` in the
  order they happened.  `calls` is the log of invocations of `validate`.
* `setLastResult(result)` guarded by `if (lastResult !== result)` has the net
  effect `lastResult := result`; the model applies the net effect (React
  render batching is outside the embedding).
-/

namespace DebouncedValidator

/-- JS runtime values relevant to the hook's result path: booleans plus the
non-boolean falsy values `null` and `undefined` that a predicate may resolve
with. -/
inductive JSRes where
  | b (val : Bool)
  | vnull
  | vundef
deriving DecidableEq

/-- JS truthiness of a `JSRes` value (`null` and `undefined` are falsy). -/
def JSRes.truthy : JSRes → Bool
  | .b v => v
  | .vnull => false
  | .vundef => false

/-- `negate ? !rawResult : rawResult` (the JS `!` operator yields a real
boolean; without negation the raw value passes through unchanged). -/
def applyNegate (negate : Bool) (raw : JSRes) : JSRes :=
  if negate then .b (!raw.truthy) else raw

variable {α : Type} [DecidableEq α]

/-- The `Options<T>` object as passed by the caller; a `none` field is an
absent (or explicitly `undefined`) property. -/
structure Opts (α : Type) where
  delay : Option Nat := none
  negate : Option Bool := none
  defaultValue : Option α := none

/-- The hook's configuration after the destructuring
`const { delay = 500, negate = false, defaultValue } = memoizedOptions`
together with the user-supplied `validate` function.  `defaultValue` has no
destructuring default, so an absent option leaves it `undefined` (`none`). -/
structure Cfg (α : Type) where
  delay : Nat
  negate : Bool
  defaultValue : Option α
  pred : Option α → Except Unit JSRes

/-- Destructuring of the options object, line
`const { delay = 500, negate = false, defaultValue } = memoizedOptions`. -/
def destructure (validate : Option α → Except Unit JSRes) (opts : Opts α) :
    Cfg α :=
  { delay := opts.delay.getD 500
    negate := opts.negate.getD false
    defaultValue := opts.defaultValue
    pred := validate }

/-- The mutable state of one hook instance: the refs and the `useState` cell
of the source, plus the event-semantics bookkeeping (live timers, in-flight
predicate calls, promise-resolution log, `clearTimeout` call counter). -/
@[ext]
structure HookState (α : Type) where
  /-- `lastValueRef`, initialised to `defaultValue`. -/
  lastValue : Option α
  /-- `lastResultRef`, initialised to `false`. -/
  lastResultR : JSRes
  /-- the reactive `lastResult` `useState` cell, initialised to `false`. -/
  lastResult : JSRes
  /-- `timerRef`: the handle of the timer the hook believes is armed. -/
  timerRef : Option Nat
  /-- fresh-handle counter for `setTimeout`. -/
  timerSeq : Nat
  /-- live timers: armed, not fired, not cancelled, as `(handle, closure value)`. -/
  pendingTimers : List (Nat × Option α)
  /-- number of `clearTimeout` calls made so far. -/
  clearCount : Nat
  /-- `pendingResolversRef`: promise ids whose resolver is queued. -/
  pendingResolvers : List Nat
  /-- `pendingValueRef`, initialised to `undefined`. -/
  pendingValue : Option α
  /-- values of predicate calls started but not yet settled. -/
  inflight : List (Option α)
  /-- log of the values `validate` has been invoked with. -/
  calls : List (Option α)
  /-- log of promise resolutions `(promise id, resolved value)`. -/
  resolved : List (Nat × JSRes)
  /-- fresh promise id. -/
  nextPid : Nat
deriving DecidableEq

/-- State at mount time. -/
def initState (cfg : Cfg α) : HookState α :=
  { lastValue := cfg.defaultValue
    lastResultR := .b false
    lastResult := .b false
    timerRef := none
    timerSeq := 0
    pendingTimers := []
    clearCount := 0
    pendingResolvers := []
    pendingValue := none
    inflight := []
    calls := []
    resolved := []
    nextPid := 0 }

/-- `flushResolvers`: splice the whole queue and resolve every spliced
resolver, in order, with `result`. -/
def flushResolvers (s : HookState α) (result : JSRes) : HookState α :=
  { s with
    resolved := s.resolved ++ s.pendingResolvers.map (fun p => (p, result))
    pendingResolvers := [] }

/-- `clearTimeout(i)`: the timer with handle `i` (if still live) will never
fire; the call is counted. -/
def clearTimer (s : HookState α) (i : Nat) : HookState α :=
  { s with
    pendingTimers := s.pendingTimers.filter (fun t => t.1 != i)
    clearCount := s.clearCount + 1 }

/-- The value a settling predicate call contributes: on fulfilment the
negation-applied raw value, on throw/rejection `false` (the catch branch). -/
def settleOutcome (cfg : Cfg α) (v : Option α) : JSRes :=
  match cfg.pred v with
  | .ok raw => applyNegate cfg.negate raw
  | .error _ => .b false

/-- Settlement half of `performValidation`: the try branch and the catch
branch both assign `lastValueRef`/`lastResultRef`, update the reactive signal,
and flush the resolver queue; they differ only in the result value. -/
def performValidation (cfg : Cfg α) (s : HookState α)
    (currentValue : Option α) : HookState α :=
  let result := settleOutcome cfg currentValue
  flushResolvers
    { s with lastValue := currentValue, lastResultR := result,
             lastResult := result }
    result

/-- One invocation of `debouncedValidator(value)`:
1. `Object.is(value, defaultValue)` bypass, resolving `true`;
2. cache bypass `lastValueRef.current === value && timerRef.current === null`,
   resolving `lastResultRef.current`;
3. otherwise push the resolver, overwrite `pendingValueRef`, clear any armed
   timer, and arm a fresh timer whose closure captures `value`. -/
def debouncedValidatorStep (cfg : Cfg α) (s : HookState α) (value : Option α) :
    HookState α :=
  let pid := s.nextPid
  let s0 := { s with nextPid := pid + 1 }
  if value = cfg.defaultValue then
    { s0 with resolved := s0.resolved ++ [(pid, .b true)] }
  else if s.lastValue = value ∧ s.timerRef = none then
    { s0 with resolved := s0.resolved ++ [(pid, s.lastResultR)] }
  else
    let s1 := { s0 with
                pendingResolvers := s0.pendingResolvers ++ [pid]
                pendingValue := value }
    let s2 := match s.timerRef with
      | some i => clearTimer s1 i
      | none => s1
    { s2 with
      pendingTimers := s2.pendingTimers ++ [(s.timerSeq, value)]
      timerSeq := s.timerSeq + 1
      timerRef := some s.timerSeq }

/-- The timeout callback of timer handle `i` running (only a live timer can
fire): null out `timerRef`, read `pendingValueRef`, return early when it
differs from the closure's `value`, otherwise start the predicate call
(`validate` is invoked synchronously inside `performValidation` before its
first `await`; its settlement is a later `settle` event). -/
def timerFire (s : HookState α) (i : Nat) : HookState α :=
  match s.pendingTimers.find? (fun t => t.1 == i) with
  | none => s
  | some t =>
    let s1 := { s with
                pendingTimers := s.pendingTimers.filter (fun u => u.1 != i)
                timerRef := none }
    if s.pendingValue = t.2 then
      { s1 with calls := s1.calls ++ [t.2], inflight := s1.inflight ++ [t.2] }
    else s1

/-- The `i`-th in-flight predicate call settling (fulfilment or rejection,
decided by `cfg.pred`). -/
def settleStep (cfg : Cfg α) (s : HookState α) (i : Nat) : HookState α :=
  match s.inflight[i]? with
  | none => s
  | some cv =>
    performValidation cfg { s with inflight := s.inflight.eraseIdx i } cv

/-- The `useEffect` cleanup: clear the armed timer if any, then flush every
queued resolver with `lastResultRef.current`. -/
def cleanupStep (s : HookState α) : HookState α :=
  let s1 := match s.timerRef with
    | some i => { clearTimer s i with timerRef := none }
    | none => s
  flushResolvers s1 s1.lastResultR

/-- Events of one hook instance. -/
inductive Act (α : Type) where
  | call (v : Option α)
  | fire (i : Nat)
  | settle (i : Nat)
  | cleanup

/-- One event. -/
def step (cfg : Cfg α) (s : HookState α) : Act α → HookState α
  | .call v => debouncedValidatorStep cfg s v
  | .fire i => timerFire s i
  | .settle i => settleStep cfg s i
  | .cleanup => cleanupStep s

/-- Run a sequence of events from a given state. -/
def runFrom (cfg : Cfg α) (s : HookState α) (acts : List (Act α)) :
    HookState α :=
  acts.foldl (step cfg) s

/-- Run a sequence of events from the mount state. -/
def run (cfg : Cfg α) (acts : List (Act α)) : HookState α :=
  runFrom cfg (initState cfg) acts

/-- Timer-ownership discipline: the hook either believes no timer is armed and
no `setTimeout` entry is live, or `timerRef` holds the handle of the single
live timer. -/
def TimerInv (s : HookState α) : Prop :=
  (s.timerRef = none ∧ s.pendingTimers = []) ∨
  ∃ i w, s.timerRef = some i ∧ s.pendingTimers = [(i, w)]

/-- Number of `clearTimeout` calls one queued call makes, given the state of
`timerRef` (the source guards the call with `if (timerRef.current)`). -/
def clearCost : Option Nat → Nat
  | some _ => 1
  | none => 0

/-- State after one queued (non-bypassed) call: the resolver is pushed,
`pendingValueRef` is overwritten, a previously armed timer is cleared, and a
fresh timer is armed (under `TimerInv` it is the only live one). -/
def queuedState (s : HookState α) (v : Option α) : HookState α :=
  { s with
    nextPid := s.nextPid + 1
    pendingResolvers := s.pendingResolvers ++ [s.nextPid]
    pendingValue := v
    pendingTimers := [(s.timerSeq, v)]
    timerSeq := s.timerSeq + 1
    timerRef := some s.timerSeq
    clearCount := s.clearCount + clearCost s.timerRef }

/-- Closed form of the state reached from `s` by a burst of `n` queued calls
whose last value is `w` (used to characterise `debouncedValidator` bursts). -/
def burstState (s : HookState α) (n : Nat) (w : Option α) : HookState α :=
  { s with
    pendingTimers := [(s.timerSeq + (n - 1), w)]
    timerRef := some (s.timerSeq + (n - 1))
    timerSeq := s.timerSeq + n
    clearCount := s.clearCount + (n - 1) + clearCost s.timerRef
    pendingResolvers := s.pendingResolvers ++ List.range' s.nextPid n
    pendingValue := w
    nextPid := s.nextPid + n }

/-- Hook instance for the cross-window trace: the predicate accepts `1` and
rejects everything else. -/
def cfgCross : Cfg Nat :=
  { delay := 500, negate := false, defaultValue := none
    pred := fun v => if v = some 1 then .ok (.b true) else .ok (.b false) }

/-- Hook instance whose predicate always fulfils with `true`. -/
def cfgTrue : Cfg Nat :=
  { delay := 500, negate := false, defaultValue := none
    pred := fun _ => .ok (.b true) }

/-- Hook instance whose predicate always throws/rejects. -/
def cfgErr : Cfg Nat :=
  { delay := 500, negate := false, defaultValue := none
    pred := fun _ => .error () }

/-- Hook instance with per-value outcomes (`1 ↦ true`, `2 ↦ false`,
`3 ↦ true`), used to watch what the cache replays. -/
def cfgCache : Cfg Nat :=
  { delay := 500, negate := false, defaultValue := none
    pred := fun v => if v = some 1 ∨ v = some 3 then .ok (.b true)
                     else .ok (.b false) }

/-- Hook instance whose predicate fulfils with the JS value `undefined`. -/
def cfgUndef : Cfg Nat :=
  { delay := 500, negate := false, defaultValue := none
    pred := fun _ => .ok .vundef }

/-- A full debounce cycle for value `v` with timer handle `i`:
call, timer fires, predicate settles. -/
def cycle (v : Nat) (i : Nat) : List (Act Nat) :=
  [Act.call (some v), Act.fire i, Act.settle 0]

/-- State with `1` validated and the cache warm, no timer armed. -/
def stHit : HookState Nat := run cfgCross (cycle 1 0)

/-- State with the predicate call for `5` still in flight and a second caller
(`6`) queued meanwhile. -/
def stErr : HookState Nat :=
  run cfgErr [Act.call (some 5), Act.fire 0, Act.call (some 6)]

/-- A validate function for the witness of the default-value bypass. -/
def valdDflt : Option Nat → Except Unit JSRes := fun _ => .ok (.b true)

/-- An options object with every property absent. -/
def optsDflt : Opts Nat := {}

end DebouncedValidator

namespace DebouncedValidator

variable {α : Type} [DecidableEq α]

theorem runFrom_cons (cfg : Cfg α) (s : HookState α) (a : Act α)
    (acts : List (Act α)) :
    runFrom cfg s (a :: acts) = runFrom cfg (step cfg s a) acts := rfl

theorem runFrom_append (cfg : Cfg α) (s : HookState α)
    (l₁ l₂ : List (Act α)) :
    runFrom cfg s (l₁ ++ l₂) = runFrom cfg (runFrom cfg s l₁) l₂ :=
  List.foldl_append _ _ _ _

theorem runFrom_inv (cfg : Cfg α) (P : HookState α → Prop)
    (hs : ∀ s a, P s → P (step cfg s a)) :
    ∀ (acts : List (Act α)) (s : HookState α), P s → P (runFrom cfg s acts) := by
  intro acts
  induction acts with
  | nil => intro s h; exact h
  | cons a l ih => intro s h; exact ih _ (hs s a h)

theorem run_inv (cfg : Cfg α) (P : HookState α → Prop)
    (h0 : P (initState cfg)) (hs : ∀ s a, P s → P (step cfg s a))
    (acts : List (Act α)) : P (run cfg acts) :=
  runFrom_inv cfg P hs acts _ h0

/-- Default-value bypass: `Object.is(value, defaultValue)` holds, so the call
resolves `true` at once and touches nothing else. -/
theorem call_bypass_default (cfg : Cfg α) (s : HookState α) (v : Option α)
    (h : v = cfg.defaultValue) :
    debouncedValidatorStep cfg s v =
      { s with
        nextPid := s.nextPid + 1
        resolved := s.resolved ++ [(s.nextPid, .b true)] } := by
  simp [debouncedValidatorStep, h]

/-- Cache bypass: `lastValueRef.current === value && timerRef.current === null`
holds, so the call resolves `lastResultRef.current` at once and touches
nothing else. -/
theorem call_bypass_cache (cfg : Cfg α) (s : HookState α) (v : Option α)
    (hv : v ≠ cfg.defaultValue) (h1 : s.lastValue = v) (h2 : s.timerRef = none) :
    debouncedValidatorStep cfg s v =
      { s with
        nextPid := s.nextPid + 1
        resolved := s.resolved ++ [(s.nextPid, s.lastResultR)] } := by
  simp [debouncedValidatorStep, hv, h1, h2]

/-- Queued-call characterisation: when neither bypass applies, one call
pushes its resolver, overwrites `pendingValueRef`, clears the previously armed
timer if any, and arms a fresh timer for `value`; under `TimerInv` the fresh
timer is then the only live one. -/
theorem call_queue_inv (cfg : Cfg α) (s : HookState α) (v : Option α)
    (hv : v ≠ cfg.defaultValue)
    (hcache : ¬(s.lastValue = v ∧ s.timerRef = none))
    (hinv : TimerInv s) :
    debouncedValidatorStep cfg s v = queuedState s v := by
  rcases hinv with ⟨ht, hp⟩ | ⟨i, w, ht, hp⟩
  · have hlv : ¬s.lastValue = v := fun hh => hcache ⟨hh, ht⟩
    simp [debouncedValidatorStep, queuedState, clearCost, hv, hlv, ht, hp,
      clearTimer]
  · simp [debouncedValidatorStep, queuedState, clearCost, hv, ht, hp,
      clearTimer]

/-- A fire event whose handle is not live is a no-op. -/
theorem fire_dead (s : HookState α) (i : Nat)
    (h : s.pendingTimers.find? (fun t => t.1 == i) = none) :
    timerFire s i = s := by
  simp [timerFire, h]

/-- A live timer firing: the timer leaves the live set, `timerRef` is nulled,
and when `pendingValueRef` still equals the closure's value the predicate call
starts; otherwise the callback returns early. -/
theorem fire_live (s : HookState α) (i : Nat) (w : Option α)
    (h : s.pendingTimers.find? (fun t => t.1 == i) = some (i, w)) :
    timerFire s i =
      if s.pendingValue = w then
        { s with
          pendingTimers := s.pendingTimers.filter (fun u => u.1 != i)
          timerRef := none
          calls := s.calls ++ [w]
          inflight := s.inflight ++ [w] }
      else
        { s with
          pendingTimers := s.pendingTimers.filter (fun u => u.1 != i)
          timerRef := none } := by
  simp only [timerFire, h]

/-- A settle event with no matching in-flight predicate call is a no-op. -/
theorem settle_dead (cfg : Cfg α) (s : HookState α) (i : Nat)
    (h : s.inflight[i]? = none) : settleStep cfg s i = s := by
  simp [settleStep, h]

/-- Settlement of the `i`-th in-flight predicate call. -/
theorem settle_live (cfg : Cfg α) (s : HookState α) (i : Nat) (cv : Option α)
    (h : s.inflight[i]? = some cv) :
    settleStep cfg s i =
      performValidation cfg { s with inflight := s.inflight.eraseIdx i } cv := by
  simp [settleStep, h]

theorem timerInv_step (cfg : Cfg α) (s : HookState α) (a : Act α)
    (h : TimerInv s) : TimerInv (step cfg s a) := by
  cases a with
  | call v =>
    show TimerInv (debouncedValidatorStep cfg s v)
    by_cases h1 : v = cfg.defaultValue
    · rw [call_bypass_default cfg s v h1]
      rcases h with ⟨ht, hp⟩ | ⟨j, w, ht, hp⟩
      · exact Or.inl ⟨ht, hp⟩
      · exact Or.inr ⟨j, w, ht, hp⟩
    · by_cases h2 : s.lastValue = v ∧ s.timerRef = none
      · rw [call_bypass_cache cfg s v h1 h2.1 h2.2]
        rcases h with ⟨ht, hp⟩ | ⟨j, w, ht, hp⟩
        · exact Or.inl ⟨ht, hp⟩
        · exact Or.inr ⟨j, w, ht, hp⟩
      · rw [call_queue_inv cfg s v h1 h2 h]
        exact Or.inr ⟨s.timerSeq, v, rfl, rfl⟩
  | fire i =>
    show TimerInv (timerFire s i)
    rcases h with ⟨ht, hp⟩ | ⟨j, w, ht, hp⟩
    · rw [fire_dead s i (by simp [hp])]
      exact Or.inl ⟨ht, hp⟩
    · by_cases hij : j = i
      · subst hij
        rw [fire_live s j w (by simp [hp])]
        split
        · exact Or.inl ⟨rfl, by rw [hp]; simp⟩
        · exact Or.inl ⟨rfl, by rw [hp]; simp⟩
      · rw [fire_dead s i (by simp [hp, hij])]
        exact Or.inr ⟨j, w, ht, hp⟩
  | settle i =>
    show TimerInv (settleStep cfg s i)
    cases hgi : s.inflight[i]? with
    | none => rw [settle_dead cfg s i hgi]; exact h
    | some cv =>
      rw [settle_live cfg s i cv hgi]
      rcases h with ⟨ht, hp⟩ | ⟨j, w, ht, hp⟩
      · exact Or.inl ⟨ht, hp⟩
      · exact Or.inr ⟨j, w, ht, hp⟩
  | cleanup =>
    show TimerInv (cleanupStep s)
    rcases h with ⟨ht, hp⟩ | ⟨j, w, ht, hp⟩
    · simp only [cleanupStep, ht]
      exact Or.inl ⟨ht, hp⟩
    · simp only [cleanupStep, ht, clearTimer]
      refine Or.inl ⟨rfl, ?_⟩
      show List.filter _ s.pendingTimers = []
      rw [hp]; simp

theorem timerInv_run (cfg : Cfg α) (acts : List (Act α)) :
    TimerInv (run cfg acts) :=
  run_inv cfg TimerInv (Or.inl ⟨rfl, rfl⟩) (timerInv_step cfg) acts

/-- Claim C9: at every reachable state of a hook instance at most one timer is
live — arming a new debounce timer always clears the previously armed one
first, so no event sequence leaves two timers pending simultaneously. -/
theorem claim_C9_single_pending_timer (cfg : Cfg α) (acts : List (Act α)) :
    (run cfg acts).pendingTimers.length ≤ 1 := by
  rcases timerInv_run cfg acts with ⟨_, hp⟩ | ⟨i, w, _, hp⟩ <;> simp [hp]

/-- `lastResultRef` and the reactive `lastResult` signal move in lockstep:
both are initialised `false` and both are written (to the same value) only at
predicate settlement. -/
theorem sig_step (cfg : Cfg α) (s : HookState α) (a : Act α)
    (h : s.lastResultR = s.lastResult) :
    (step cfg s a).lastResultR = (step cfg s a).lastResult := by
  cases a with
  | call v =>
    show (debouncedValidatorStep cfg s v).lastResultR
        = (debouncedValidatorStep cfg s v).lastResult
    simp only [debouncedValidatorStep]
    split
    · exact h
    · split
      · exact h
      · split <;> exact h
  | fire i =>
    show (timerFire s i).lastResultR = (timerFire s i).lastResult
    simp only [timerFire]
    split
    · exact h
    · split <;> exact h
  | settle i =>
    show (settleStep cfg s i).lastResultR = (settleStep cfg s i).lastResult
    simp only [settleStep]
    split
    · exact h
    · rfl
  | cleanup =>
    show (cleanupStep s).lastResultR = (cleanupStep s).lastResult
    simp only [cleanupStep, flushResolvers]
    split <;> exact h

theorem sig_run (cfg : Cfg α) (acts : List (Act α)) :
    (run cfg acts).lastResultR = (run cfg acts).lastResult :=
  run_inv cfg (fun s => s.lastResultR = s.lastResult) rfl (sig_step cfg) acts

/-- Claim C8: teardown cancels the armed timer when there is one (and performs
no `clearTimeout` when there is none), and resolves every queued waiter with
the last known reactive-signal value, leaving no waiter pending. -/
theorem claim_C8_teardown (cfg : Cfg α) (acts : List (Act α)) :
    (step cfg (run cfg acts) Act.cleanup).resolved
        = (run cfg acts).resolved
          ++ (run cfg acts).pendingResolvers.map
              (fun p => (p, (run cfg acts).lastResult)) ∧
    (step cfg (run cfg acts) Act.cleanup).pendingResolvers = [] ∧
    (step cfg (run cfg acts) Act.cleanup).timerRef = none ∧
    (step cfg (run cfg acts) Act.cleanup).pendingTimers = [] ∧
    (step cfg (run cfg acts) Act.cleanup).clearCount
        = (run cfg acts).clearCount + clearCost (run cfg acts).timerRef := by
  have hsig := sig_run cfg acts
  have hclean : step cfg (run cfg acts) Act.cleanup
      = cleanupStep (run cfg acts) := rfl
  rcases timerInv_run cfg acts with ⟨ht, hp⟩ | ⟨j, w, ht, hp⟩
  · have hc : cleanupStep (run cfg acts)
        = flushResolvers (run cfg acts) (run cfg acts).lastResultR := by
      simp only [cleanupStep, ht]
    rw [hclean, hc]
    refine ⟨?_, rfl, ht, hp, ?_⟩
    · simp only [flushResolvers, hsig]
    · simp only [flushResolvers]
      rw [ht]; simp [clearCost]
  · have hc : cleanupStep (run cfg acts)
        = flushResolvers { clearTimer (run cfg acts) j with timerRef := none }
            (run cfg acts).lastResultR := by
      simp only [cleanupStep, ht]
      rfl
    rw [hclean, hc]
    refine ⟨?_, rfl, rfl, ?_, ?_⟩
    · simp only [flushResolvers, clearTimer, hsig]
    · simp only [flushResolvers, clearTimer]
      rw [hp]; simp
    · simp only [flushResolvers, clearTimer]
      rw [ht]; simp [clearCost]

/-- A burst of queued calls: each call enqueues the next promise id, re-arms
the timer, and leaves everything a settlement would touch unchanged; the state
afterwards is `burstState`. -/
theorem burst_run (cfg : Cfg α) :
    ∀ (vs : List (Option α)) (w : Option α) (s : HookState α),
      vs.getLast? = some w →
      (∀ v ∈ vs, v ≠ cfg.defaultValue) →
      (∀ v ∈ vs, s.lastValue ≠ v) →
      TimerInv s →
      runFrom cfg s (vs.map Act.call) = burstState s vs.length w := by
  intro vs
  induction vs with
  | nil => intro w s hw _ _ _; simp at hw
  | cons v rest ih =>
    intro w s hw hdef hlv hinv
    have hv : v ≠ cfg.defaultValue := hdef v (List.mem_cons_self v rest)
    have hcache : ¬(s.lastValue = v ∧ s.timerRef = none) :=
      fun hh => hlv v (List.mem_cons_self v rest) hh.1
    rw [List.map_cons, runFrom_cons,
      show step cfg s (Act.call v) = debouncedValidatorStep cfg s v from rfl,
      call_queue_inv cfg s v hv hcache hinv]
    cases rest with
    | nil =>
      have hwv : v = w := by simpa using hw
      subst hwv
      show queuedState s v = burstState s 1 v
      apply HookState.ext <;>
        (try simp [queuedState, burstState, List.range'_succ]) <;>
        (try omega)
    | cons r t =>
      have hw' : (r :: t).getLast? = some w := by
        rw [← List.getLast?_cons_cons (a := v)]; exact hw
      have hdef' : ∀ x ∈ r :: t, x ≠ cfg.defaultValue :=
        fun x hx => hdef x (List.mem_cons_of_mem v hx)
      have hlv' : ∀ x ∈ r :: t, (queuedState s v).lastValue ≠ x :=
        fun x hx => hlv x (List.mem_cons_of_mem v hx)
      have hinv' : TimerInv (queuedState s v) :=
        Or.inr ⟨s.timerSeq, v, rfl, rfl⟩
      rw [ih w (queuedState s v) hw' hdef' hlv' hinv']
      apply HookState.ext <;>
        (try simp [queuedState, burstState, clearCost, List.range'_succ]) <;>
        (try omega)

/-- Firing the surviving timer of a burst and settling its predicate call:
the predicate runs once, with the burst's last value, and every promise of the
burst resolves with that one settlement outcome. -/
theorem fire_settle_burst (cfg : Cfg α) (n : Nat) (w : Option α) :
    (runFrom cfg (burstState (initState cfg) n w)
        [Act.fire (n - 1), Act.settle 0]).calls = [w] ∧
    (runFrom cfg (burstState (initState cfg) n w)
        [Act.fire (n - 1), Act.settle 0]).resolved
      = (List.range n).map (fun p => (p, settleOutcome cfg w)) := by
  have hfind : (burstState (initState cfg) n w).pendingTimers.find?
      (fun t => t.1 == n - 1) = some (n - 1, w) := by
    simp [burstState, initState]
  rw [show ([Act.fire (n - 1), Act.settle 0] : List (Act α))
        = [Act.fire (n - 1)] ++ [Act.settle 0] from rfl,
    runFrom_append]
  rw [show runFrom cfg (burstState (initState cfg) n w) [Act.fire (n - 1)]
        = timerFire (burstState (initState cfg) n w) (n - 1) from rfl,
    fire_live _ _ w hfind]
  rw [if_pos (show (burstState (initState cfg) n w).pendingValue = w from rfl)]
  rw [show ∀ s : HookState α, runFrom cfg s [Act.settle 0] = settleStep cfg s 0
      from fun _ => rfl]
  simp [settleStep, burstState, initState, performValidation, flushResolvers,
    List.range_eq_range']

/-- Claim C2: for every burst of calls issued within one delay interval (none
of them answered by the default-value or cache bypass, which from the mount
state is guaranteed by the values differing from `defaultValue`), the
predicate is invoked exactly once, with the value of the last call of the
burst, and every promise of the burst resolves with that single
(negation-applied) settlement outcome. -/
theorem claim_C2_debounce_collapse (cfg : Cfg α) (vs : List (Option α))
    (w : Option α) (hw : vs.getLast? = some w)
    (hdef : ∀ v ∈ vs, v ≠ cfg.defaultValue) :
    (run cfg (vs.map Act.call
        ++ [Act.fire (vs.length - 1), Act.settle 0])).calls = [w] ∧
    (run cfg (vs.map Act.call
        ++ [Act.fire (vs.length - 1), Act.settle 0])).resolved
      = (List.range vs.length).map (fun p => (p, settleOutcome cfg w)) := by
  have hlv : ∀ v ∈ vs, (initState cfg).lastValue ≠ v := by
    intro v hv
    show cfg.defaultValue ≠ v
    exact (hdef v hv).symm
  rw [run, runFrom_append,
    burst_run cfg vs w (initState cfg) hw hdef hlv (Or.inl ⟨rfl, rfl⟩)]
  exact fire_settle_burst cfg vs.length w

/-- Witness for claim C2 at a concrete burst: two calls (`0` then `1`), the
surviving timer fires, the predicate settles; the predicate ran once with `1`
and both promises resolved with its outcome. -/
theorem claim_C2_debounce_collapse_witness :
    (([some 0, some 1] : List (Option Nat)).getLast? = some (some 1)) ∧
    (∀ v ∈ ([some 0, some 1] : List (Option Nat)), v ≠ cfgTrue.defaultValue) ∧
    ((run cfgTrue (([some 0, some 1] : List (Option Nat)).map Act.call
        ++ [Act.fire (([some 0, some 1] : List (Option Nat)).length - 1),
            Act.settle 0])).calls = [some 1] ∧
     (run cfgTrue (([some 0, some 1] : List (Option Nat)).map Act.call
        ++ [Act.fire (([some 0, some 1] : List (Option Nat)).length - 1),
            Act.settle 0])).resolved
        = (List.range ([some 0, some 1] : List (Option Nat)).length).map
            (fun p => (p, settleOutcome cfgTrue (some 1)))) :=
  ⟨by decide, by decide,
    claim_C2_debounce_collapse cfgTrue [some 0, some 1] (some 1)
      (by decide) (by decide)⟩

/-- Claim C1 is violated by the code: with the predicate mapping `1 ↦ true`
and `2 ↦ false`, the trace "call `1`; its timer fires and `validate(1)` is in
flight; call `2` arrives and queues its resolver into the shared
`pendingResolversRef`; `validate(1)` settles" resolves promise `1` — a waiter
registered after window `1` fired, i.e. a waiter of window `2` — with window
`1`'s outcome `true`.  Even after window `2` fires and settles (outcome
`false`), promise `1` keeps the foreign outcome: the resolution log ends as
`[(0, true), (1, true)]` although `settleOutcome` for `2` is `false`.  The
single shared waiter queue, flushed at settlement rather than captured at
fire time, is exactly the implementation §5 of the specification rules out. -/
theorem claim_C1_cross_window_resolution :
    (run cfgCross [Act.call (some 1), Act.fire 0, Act.call (some 2),
        Act.settle 0, Act.fire 1, Act.settle 0]).resolved
      = [(0, JSRes.b true), (1, JSRes.b true)] ∧
    settleOutcome cfgCross (some 2) = JSRes.b false ∧
    (run cfgCross [Act.call (some 1), Act.fire 0, Act.call (some 2),
        Act.settle 0, Act.fire 1, Act.settle 0]).calls = [some 1, some 2] :=
  ⟨by decide, by decide, by decide⟩

/-- Counterexample to claim C3: with an always-throwing predicate, after the
failed window for value `0` the cache entry IS updated
(`lastValueRef = 0`, `lastResultRef = false`), and the subsequent call with
`0` is answered `false` from the cache — the predicate-invocation log stays
`[0]` instead of gaining a second entry. -/
theorem claim_C3_counterexample :
    (run cfgErr [Act.call (some 0), Act.fire 0, Act.settle 0,
        Act.call (some 0)]).calls = [some 0] ∧
    (run cfgErr [Act.call (some 0), Act.fire 0, Act.settle 0,
        Act.call (some 0)]).lastValue = some 0 ∧
    (run cfgErr [Act.call (some 0), Act.fire 0, Act.settle 0,
        Act.call (some 0)]).resolved
      = [(0, JSRes.b false), (1, JSRes.b false)] := by decide

/-- Claim C3 as amended: when the predicate throws or rejects for a window's
target value, the catch branch DOES update the single-entry cache
(`lastValueRef := value`, `lastResultRef := false`), so a subsequent call with
the same value (with no timer armed) is answered `false` from the cache and
does not re-invoke the predicate. -/
theorem claim_C3_failure_negative_cached (cfg : Cfg α) (v : Option α)
    (hv : v ≠ cfg.defaultValue) (herr : cfg.pred v = .error ()) :
    (run cfg [Act.call v, Act.fire 0, Act.settle 0, Act.call v]).calls
        = [v] ∧
    (run cfg [Act.call v, Act.fire 0, Act.settle 0, Act.call v]).lastValue
        = v ∧
    (run cfg [Act.call v, Act.fire 0, Act.settle 0, Act.call v]).lastResultR
        = JSRes.b false ∧
    (run cfg [Act.call v, Act.fire 0, Act.settle 0, Act.call v]).resolved
      = [(0, JSRes.b false), (1, JSRes.b false)] := by
  have hv' : cfg.defaultValue ≠ v := Ne.symm hv
  simp [run, runFrom, step, debouncedValidatorStep, initState, timerFire,
    settleStep, performValidation, flushResolvers, settleOutcome, herr, hv,
    hv', clearTimer]

/-- Witness for the amended claim C3 at the always-throwing instance. -/
theorem claim_C3_failure_negative_cached_witness :
    ((some 0 : Option Nat) ≠ cfgErr.defaultValue) ∧
    cfgErr.pred (some 0) = .error () ∧
    ((run cfgErr [Act.call (some 0), Act.fire 0, Act.settle 0,
        Act.call (some 0)]).calls = [some 0] ∧
     (run cfgErr [Act.call (some 0), Act.fire 0, Act.settle 0,
        Act.call (some 0)]).lastValue = some 0 ∧
     (run cfgErr [Act.call (some 0), Act.fire 0, Act.settle 0,
        Act.call (some 0)]).lastResultR = JSRes.b false ∧
     (run cfgErr [Act.call (some 0), Act.fire 0, Act.settle 0,
        Act.call (some 0)]).resolved
       = [(0, JSRes.b false), (1, JSRes.b false)]) :=
  ⟨by decide, rfl,
    claim_C3_failure_negative_cached cfgErr (some 0) (by decide) rfl⟩

/-- Counterexample to claim C4: after full debounce cycles for `1`, `2`, `3`,
a later call with `2` is NOT answered from cache — the predicate is invoked a
fourth time, with `2` (the claim's `maxCacheSize = 2` option does not exist in
the code's `Options`). -/
theorem claim_C4_counterexample :
    (run cfgCache (cycle 1 0 ++ cycle 2 1 ++ cycle 3 2 ++ cycle 2 3)).calls
      = [some 1, some 2, some 3, some 2] := by decide

/-- Claim C4 as amended: the cache is the single most-recent entry
(`lastValueRef`/`lastResultRef`), with no `maxCacheSize` option.  After
validating `1`, `2`, `3` in order, only `3` is answered from cache (with its
own stored outcome, no new predicate call); later calls with `2` or with `1`
both re-invoke the predicate. -/
theorem claim_C4_single_entry_cache :
    ((run cfgCache (cycle 1 0 ++ cycle 2 1 ++ cycle 3 2
        ++ [Act.call (some 3)])).calls = [some 1, some 2, some 3] ∧
     (run cfgCache (cycle 1 0 ++ cycle 2 1 ++ cycle 3 2
        ++ [Act.call (some 3)])).resolved
       = [(0, JSRes.b true), (1, JSRes.b false), (2, JSRes.b true),
          (3, JSRes.b true)]) ∧
    (run cfgCache (cycle 1 0 ++ cycle 2 1 ++ cycle 3 2 ++ cycle 2 3)).calls
      = [some 1, some 2, some 3, some 2] ∧
    (run cfgCache (cycle 1 0 ++ cycle 2 1 ++ cycle 3 2 ++ cycle 1 3)).calls
      = [some 1, some 2, some 3, some 1] := by decide

/-- Counterexample to claim C5: value `1` is cached and the armed window is
for value `2` (so no window is armed for `1`), yet the call with `1` does not
resolve synchronously — its promise (id `2`) sits unresolved in the waiter
queue because the code requires `timerRef.current === null`, not merely "no
window armed for this value". -/
theorem claim_C5_counterexample :
    (run cfgCross [Act.call (some 1), Act.fire 0, Act.settle 0,
        Act.call (some 2)]).lastValue = some 1 ∧
    (run cfgCross [Act.call (some 1), Act.fire 0, Act.settle 0,
        Act.call (some 2)]).pendingTimers = [(1, some 2)] ∧
    (run cfgCross [Act.call (some 1), Act.fire 0, Act.settle 0,
        Act.call (some 2), Act.call (some 1)]).resolved
      = [(0, JSRes.b true)] ∧
    (run cfgCross [Act.call (some 1), Act.fire 0, Act.settle 0,
        Act.call (some 2), Act.call (some 1)]).pendingResolvers = [1, 2] := by
  decide

/-- Claim C5 as amended: a call whose value is cached resolves synchronously
with the stored (negation-already-applied) outcome — leaving every other part
of the state untouched, so no timer is armed and the predicate is not
invoked — exactly when NO timer is armed at all (not merely none for this
value). -/
theorem claim_C5_cache_bypass_amended (cfg : Cfg α) (s : HookState α)
    (v : Option α) (hv : v ≠ cfg.defaultValue) (hlv : s.lastValue = v)
    (ht : s.timerRef = none) :
    step cfg s (Act.call v) =
      { s with
        nextPid := s.nextPid + 1
        resolved := s.resolved ++ [(s.nextPid, s.lastResultR)] } :=
  call_bypass_cache cfg s v hv hlv ht

/-- Witness for the amended claim C5: after a full cycle for `1`, a repeat
call with `1` resolves synchronously from the cache. -/
theorem claim_C5_cache_bypass_amended_witness :
    ((some 1 : Option Nat) ≠ cfgCross.defaultValue) ∧
    stHit.lastValue = some 1 ∧
    stHit.timerRef = none ∧
    step cfgCross stHit (Act.call (some 1)) =
      { stHit with
        nextPid := stHit.nextPid + 1
        resolved := stHit.resolved ++ [(stHit.nextPid, stHit.lastResultR)] } :=
  ⟨by decide, by decide, by decide,
    claim_C5_cache_bypass_amended cfgCross stHit (some 1)
      (by decide) (by decide) (by decide)⟩

/-- Claim C6: when an in-flight predicate call settles by throw/rejection,
every waiter queued at that moment is resolved with `false`, the waiter queue
empties, and both the reactive signal and `lastResultRef` become `false`.
(In this embedding a settlement always resolves waiters with a value — the
catch branch absorbs the exception, so no promise returned by
`debouncedValidator` can reject.) -/
theorem claim_C6_failure_fail_closed (cfg : Cfg α) (s : HookState α) (i : Nat)
    (cv : Option α) (hin : s.inflight[i]? = some cv)
    (herr : cfg.pred cv = .error ()) :
    (step cfg s (Act.settle i)).resolved
        = s.resolved ++ s.pendingResolvers.map (fun p => (p, JSRes.b false)) ∧
    (step cfg s (Act.settle i)).pendingResolvers = [] ∧
    (step cfg s (Act.settle i)).lastResult = JSRes.b false ∧
    (step cfg s (Act.settle i)).lastResultR = JSRes.b false := by
  rw [show step cfg s (Act.settle i) = settleStep cfg s i from rfl,
    settle_live cfg s i cv hin]
  simp [performValidation, flushResolvers, settleOutcome, herr]

/-- Witness for claim C6: the in-flight call for `5` rejects while waiters
`0` (its own window) and `1` (queued afterwards) are pending; both resolve
`false` and the signal drops to `false`. -/
theorem claim_C6_failure_fail_closed_witness :
    stErr.inflight[0]? = some (some 5) ∧
    cfgErr.pred (some 5) = .error () ∧
    ((step cfgErr stErr (Act.settle 0)).resolved
        = stErr.resolved
          ++ stErr.pendingResolvers.map (fun p => (p, JSRes.b false)) ∧
     (step cfgErr stErr (Act.settle 0)).pendingResolvers = [] ∧
     (step cfgErr stErr (Act.settle 0)).lastResult = JSRes.b false ∧
     (step cfgErr stErr (Act.settle 0)).lastResultR = JSRes.b false) :=
  ⟨by decide, rfl,
    claim_C6_failure_fail_closed cfgErr stErr 0 (some 5) (by decide) rfl⟩

/-- Claim C7 is violated by the code: with `negate = false` (the default),
a predicate that fulfils with `undefined` makes
`negate ? !rawResult : rawResult` pass the raw `undefined` through, so the
waiter's promise is resolved with `undefined` — not with the boolean
`false` — and `lastResultRef` is polluted with `undefined` as well. -/
theorem claim_C7_non_boolean_resolution :
    (run cfgUndef [Act.call (some 1), Act.fire 0, Act.settle 0]).resolved
      = [(0, JSRes.vundef)] ∧
    (run cfgUndef [Act.call (some 1), Act.fire 0, Act.settle 0]).lastResultR
      = JSRes.vundef ∧
    JSRes.vundef ≠ JSRes.b false := by decide

/-- Claim C10: constructing the hook without a `defaultValue` option leaves
`defaultValue` as `undefined`, and `Object.is(undefined, undefined)` holds,
so `debouncedValidator(undefined)` resolves `true` immediately — the state
equality shows no predicate call, no timer, and no cache touch. -/
theorem claim_C10_default_bypass (validate : Option α → Except Unit JSRes)
    (opts : Opts α) (s : HookState α) (habsent : opts.defaultValue = none) :
    (destructure validate opts).defaultValue = none ∧
    step (destructure validate opts) s (Act.call none) =
      { s with
        nextPid := s.nextPid + 1
        resolved := s.resolved ++ [(s.nextPid, JSRes.b true)] } := by
  refine ⟨habsent, ?_⟩
  exact call_bypass_default (destructure validate opts) s none
    (by simp [destructure, habsent])

/-- Witness for claim C10 at an options object with every property absent. -/
theorem claim_C10_default_bypass_witness :
    optsDflt.defaultValue = none ∧
    ((destructure valdDflt optsDflt).defaultValue = none ∧
     step (destructure valdDflt optsDflt)
        (initState (destructure valdDflt optsDflt)) (Act.call none) =
       { initState (destructure valdDflt optsDflt) with
         nextPid := (initState (destructure valdDflt optsDflt)).nextPid + 1
         resolved := (initState (destructure valdDflt optsDflt)).resolved
           ++ [((initState (destructure valdDflt optsDflt)).nextPid,
                JSRes.b true)] }) :=
  ⟨rfl, claim_C10_default_bypass valdDflt optsDflt _ rfl⟩

end DebouncedValidator
